import Mathlib

set_option linter.unusedVariables false

/-!
Shallow embedding of the compute-subnet validator (`src/neurons/validator.py`)
and proofs about its difficulty controller, membership filter, registry
lifecycle manager, challenge dispatcher, weight scheduler and main-loop
error handling.
-/

/-- Network/axon information of a worker, as used by the validator:
its operator key (`hotkey`), owning account key (`coldkey`), network
address (`ip`) and reported agent version. -/
structure AxonInfo where
  hotkey : String
  coldkey : String
  ip : String
  version : Nat
deriving DecidableEq, Repr

/- ======================= Difficulty controller (C3) ======================= -/

/-- One row of `select_challenge_stats`, as read by `Validator.calc_difficulty`:
the three fields it looks up with `stat.get`, each possibly absent. -/
structure ChallengeStat where
  last20DifficultyAvg : Option ℚ
  last20ChallengeFailed : Option ℚ
  challengeSuccesses : Option ℚ
deriving DecidableEq

/-- Modelled from the spec: `force_to_float_or_default` from
`compute.utils.math` (repository code not under `src/`) converts its
argument to a float and falls back to the supplied default when the value
is absent or not convertible. -/
def force_to_float_or_default (v : Option ℚ) (d : ℚ) : ℚ :=
  v.getD d

/-- The `current_difficulty` local of `Validator.calc_difficulty`:
`math.ceil(force_to_float_or_default(stat.get("last_20_difficulty_avg"), default=pow_min_difficulty))`. -/
def currentDifficulty (powMinDifficulty : ℤ) (stat : ChallengeStat) : ℤ :=
  Int.ceil (force_to_float_or_default stat.last20DifficultyAvg (powMinDifficulty : ℚ))

/-- `Validator.calc_difficulty` (validator.py lines 292-311). `none` for the
stats entry is the `KeyError` path (`self.stats[uid]` absent). -/
def calc_difficulty (powMinDifficulty : ℤ) (stats : Option ChallengeStat) : ℤ :=
  match stats with
  | none => powMinDifficulty
  | some stat =>
    let cur := currentDifficulty powMinDifficulty stat
    let failed := force_to_float_or_default stat.last20ChallengeFailed 0
    let succ := force_to_float_or_default stat.challengeSuccesses 0
    if 20 ≤ succ then
      if failed = 0 then cur + 1
      else if 2 ≤ failed then cur - 1
      else cur
    else powMinDifficulty

/- ======================= Weight scheduler tick (C2) ======================= -/

/-- The rate-limited weight-commit section of `Validator.start`
(validator.py lines 436-442), as a function of one tick. Inputs: the
configured rate limit, the current block, the stored `last_updated_block`,
and whether the `subtensor.set_weights` commit succeeds. Output: the new
`last_updated_block` and whether a score-recompute plus commit attempt was
made this tick. The source updates `self.last_updated_block` right after
calling `set_weights`, without inspecting the commit result (the result is
only logged inside `set_weights`). -/
def weightsTickUpdate (rateLimit currentBlock lastUpdatedBlock : ℤ)
    (commitSucceeds : Bool) : ℤ × Bool :=
  if rateLimit < currentBlock - lastUpdatedBlock then
    (currentBlock, true)
  else
    (lastUpdatedBlock, false)

/- ======================= Main loop error handling (C9) ======================= -/

/-- Classification of an exception escaping the body of the validator's main
loop: a `RuntimeError`, a `KeyboardInterrupt`, or any other exception. -/
inductive LoopExc
  | runtimeError
  | keyboardInterrupt
  | otherError
deriving DecidableEq, Repr

/-- What the process is doing after the loop has consumed its tick trace. -/
inductive LoopOutcome
  | running
  | exited
  | crashed
deriving DecidableEq, Repr

/-- Number of loop-body iterations entered, and the resulting process state. -/
structure LoopRun where
  processed : Nat
  outcome : LoopOutcome
deriving DecidableEq, Repr

/-- The exception discipline of the `while True` loop of `Validator.start`
(validator.py lines 323-464): each list element is what one tick's body
does (`none` = returns normally, `some e` = raises `e`). The loop's only
handlers are `except RuntimeError` (log and continue) and
`except KeyboardInterrupt` (close the db and exit); any other exception
propagates out of the loop and the process crashes. -/
def runLoop : List (Option LoopExc) → LoopRun
  | [] => { processed := 0, outcome := LoopOutcome.running }
  | t :: ts =>
    match t with
    | none =>
      let r := runLoop ts
      { processed := r.processed + 1, outcome := r.outcome }
    | some LoopExc.runtimeError =>
      let r := runLoop ts
      { processed := r.processed + 1, outcome := r.outcome }
    | some LoopExc.keyboardInterrupt => { processed := 1, outcome := LoopOutcome.exited }
    | some LoopExc.otherError => { processed := 1, outcome := LoopOutcome.crashed }

/- ======================= Blacklist membership (C5) ======================= -/

/-- The fields of `bt.NeuronInfoLite` read by `Validator.is_blacklisted`. -/
structure NeuronInfo where
  hotkey : String
  coldkey : String
deriving DecidableEq, Repr

/-- The four blacklist sets held by the validator, modelled as duplicate-free
lists of keys. -/
structure BlacklistState where
  blacklistHotkeys : List String
  blacklistColdkeys : List String
  exploitersHotkeys : List String
  exploitersColdkeys : List String
deriving DecidableEq, Repr

/-- Python `set.add`: insert the key if it is not already present. -/
def addKey (k : String) (l : List String) : List String :=
  if k ∈ l then l else k :: l

/-- `Validator.is_blacklisted` (validator.py lines 529-557). Returns the
verdict together with the updated blacklist state: when the hotkey is found
in `blacklist_hotkeys` the source executes `self.blacklist_hotkeys.add(coldkey)`,
and when it is found in `exploiters_hotkeys` it executes
`self.exploiters_hotkeys.add(coldkey)` — in both cases the coldkey is added
to the HOTKEY set, while the adjacent source comments say the coldkey is
being added to the blacklisted coldkeys. -/
def is_blacklisted (s : BlacklistState) (n : NeuronInfo) : Bool × BlacklistState :=
  if n.coldkey ∈ s.blacklistColdkeys then (true, s)
  else if n.hotkey ∈ s.blacklistHotkeys then
    (true, { s with blacklistHotkeys := addKey n.coldkey s.blacklistHotkeys })
  else if n.coldkey ∈ s.exploitersColdkeys then (true, s)
  else if n.hotkey ∈ s.exploitersHotkeys then
    (true, { s with exploitersHotkeys := addKey n.coldkey s.exploitersHotkeys })
  else (false, s)

/- ======================= Challenge dispatcher (C1) ======================= -/

/-- Fuelled chunking helper; the fuel is an upper bound on the number of
chunks (one chunk consumes at least one element when the step is positive). -/
def chunkListFuel : Nat → Nat → List Nat → List (List Nat)
  | 0, _, _ => []
  | _ + 1, _, [] => []
  | _ + 1, 0, _ :: _ => []
  | fuel + 1, b + 1, x :: xs =>
    ((x :: xs).take (b + 1)) :: chunkListFuel fuel (b + 1) ((x :: xs).drop (b + 1))

/-- Python `[uids[i : i + B] for i in range(0, len(uids), B)]`: the
consecutive slices of `uids` of length at most `b` (empty when `b = 0`,
where the source's `range` step would be invalid). -/
def chunkList (b : Nat) (l : List Nat) : List (List Nat) :=
  chunkListFuel l.length b l

/-- Result of the challenge-dispatch section of `Validator.start`
(validator.py lines 347-370): the threads created during each iteration of
the batch loop, the uids for which a proof-of-work request was generated,
and the threads that are actually started and joined. -/
structure DispatchResult where
  threadBatches : List (List Nat)
  powRequests : List Nat
  startedThreads : List Nat
deriving DecidableEq, Repr

/-- The challenge-dispatch section of `Validator.start` (validator.py lines
347-370). The outer loop walks `self.uids` in slices of
`validator_challenge_batch_size`; inside each slice it resets
`self.threads = []` and, for every uid present in `self._queryable_uids`
(the `KeyError` branch skips the others), generates a pow request and
appends a thread. The `thread.start()` and `thread.join()` loops sit after
the batch loop, at its own indentation level, so they act on `self.threads`
as left by the final slice only. -/
def dispatchRound (uids : List Nat) (queryable : Nat → Bool) (b : Nat) : DispatchResult :=
  let tb := (chunkList b uids).map (fun c => c.filter queryable)
  { threadBatches := tb
    powRequests := tb.flatten
    startedThreads := tb.getLast?.getD [] }

/- ======================= Version filter (C4) ======================= -/

/-- Modelled from the spec: `percent` from `compute.utils.math` (repository
code not under `src/`): the ratio of its arguments expressed as a
percentage, 0 when the denominator is zero. -/
def percent (a b : ℚ) : ℚ :=
  if b = 0 then 0 else 100 * a / b

/-- `Validator.filter_axon_version` (validator.py lines 516-527).
`latestVersion` is `version2number(get_remote_version(...))`, with 0
standing for the falsy value obtained when the remote lookup fails; the
source keeps an axon only under `latest_version and axon.version >= latest_version`.
The skip branch compares `percent(len(dict_filtered_axons), self.total_current_miners)`
against `validator_whitelist_miners_threshold`. -/
def filter_axon_version (latestVersion : Nat) (totalCurrentMiners : Nat) (threshold : ℚ)
    (axons : List (Nat × AxonInfo)) : List (Nat × AxonInfo) :=
  if percent (axons.length : ℚ) (totalCurrentMiners : ℚ) ≤ threshold then
    axons
  else
    axons.filter (fun p => decide (latestVersion ≠ 0) && decide (latestVersion ≤ p.2.version))

/- ======================= Registry lifecycle (C6, C10) ======================= -/

/-- A side effect issued to the stats store by `sync_miners_info`:
`purge_miner_entries(db, uid, old_hotkey)` or `update_miners(db, [(uid, hotkey)])`. -/
inductive DbEffect
  | purge (uid : Nat) (hotkey : String)
  | upsert (uid : Nat) (hotkey : String)
deriving DecidableEq, Repr

/-- Lookup in the in-memory miners map (`self.miners[uid]`). -/
def lookupMiner (uid : Nat) : List (Nat × String) → Option String
  | [] => none
  | (u, hk) :: rest => if u = uid then some hk else lookupMiner uid rest

/-- Python dict assignment `self.miners[uid] = hotkey`: replace the binding
when the key is present, append it otherwise. -/
def updateMiner (uid : Nat) (hk : String) : List (Nat × String) → List (Nat × String)
  | [] => [(uid, hk)]
  | (u, h) :: rest =>
    if u = uid then (u, hk) :: rest else (u, h) :: updateMiner uid hk rest

/-- One iteration of the loop body of `Validator.sync_miners_info`
(validator.py lines 486-495). The guard is
`self.miners_items_to_set and (uid, axon.hotkey) not in self.miners_items_to_set`,
where `miners_items_to_set` is `None` (falsy) when `self.miners` is empty;
inside the guard the source purges the previous binding when present
(`except KeyError` skips the purge when `uid` is unknown), upserts the new
binding and sets the in-memory entry. -/
def syncStep (st : List (Nat × String) × List DbEffect) (p : Nat × AxonInfo) :
    List (Nat × String) × List DbEffect :=
  let miners := st.1
  let effs := st.2
  let uid := p.1
  let axon := p.2
  if miners ≠ [] ∧ (uid, axon.hotkey) ∉ miners then
    match lookupMiner uid miners with
    | some old =>
      (updateMiner uid axon.hotkey miners,
       effs ++ [DbEffect.purge uid old, DbEffect.upsert uid axon.hotkey])
    | none =>
      (updateMiner uid axon.hotkey miners, effs ++ [DbEffect.upsert uid axon.hotkey])
  else
    (miners, effs)

/-- `Validator.sync_miners_info` (validator.py lines 484-497): fold the loop
body over the queryable (uid, axon) list, collecting the stats-store
effects in order (the empty-queryable branch only logs a warning). -/
def sync_miners_info (miners : List (Nat × String)) (queryable : List (Nat × AxonInfo)) :
    List (Nat × String) × List DbEffect :=
  queryable.foldl syncStep (miners, [])

/- ======================= Weight vector (C7) ======================= -/

/-- The epsilon used by `torch.nn.functional.normalize`. -/
def torchEps : ℚ := 1 / 10 ^ 12

/-- The L1 norm of a score vector. -/
def l1Norm (scores : List ℚ) : ℚ :=
  (scores.map (fun s => abs s)).sum

/-- The weight vector committed by `Validator.set_weights` (validator.py
lines 466-478): `torch.nn.functional.normalize(self.scores, p=1.0, dim=0)`,
i.e. each score divided by the maximum of the vector's L1 norm and the
library's epsilon. -/
def set_weights_vector (scores : List ℚ) : List ℚ :=
  scores.map (fun s => s / max (l1Norm scores) torchEps)

/- ======================= Address deduplication (C8) ======================= -/

/-- Loop of `Validator.filter_axons` (validator.py lines 499-514): `seen` is
the `valid_ip_addresses` set accumulated so far; an entry is kept exactly
when its ip has not been seen before. -/
def filterAxonsAux : List String → List (Nat × AxonInfo) → List (Nat × AxonInfo)
  | _, [] => []
  | seen, p :: rest =>
    if p.2.ip ∈ seen then filterAxonsAux seen rest
    else p :: filterAxonsAux (p.2.ip :: seen) rest

/-- `Validator.filter_axons`: keep the first axon observed per unique ip
address, in input order (the source accumulates them into a dict keyed by
uid, here an association list in the same order). -/
def filter_axons (pairs : List (Nat × AxonInfo)) : List (Nat × AxonInfo) :=
  filterAxonsAux [] pairs

/-- Short-hand constructor for a (uid, axon) candidate carrying only a
version, for concrete evaluations of the version filter. -/
def axV (u v : Nat) : Nat × AxonInfo :=
  (u, { hotkey := "h", coldkey := "c", ip := "i", version := v })

/-- A concrete stage-3 set of 10 workers, 6 of them on the outdated
version 1 and 4 on version 2, used to refute the claimed skip condition of
the version stage. -/
def sampleAxons : List (Nat × AxonInfo) :=
  [axV 0 1, axV 1 1, axV 2 1, axV 3 1, axV 4 1, axV 5 1,
   axV 6 2, axV 7 2, axV 8 2, axV 9 2]

/- ======================= Theorems ======================= -/

/-- C1: with batch size 2 and the five queryable workers 0..4, the dispatch
section of `Validator.start` does slice the uid list into the three batches
[0,1], [2,3], [4] and creates one thread per worker, but the start/join
loops run only once, after the batch loop, on the thread list left by the
last slice: only worker 4's proof-of-work task is ever started and joined,
while pow requests were generated for all five workers. This refutes the
claim that each batch is fully executed and joined before the next
begins. -/
theorem challenge_dispatch_last_batch_only :
    (dispatchRound [0, 1, 2, 3, 4] (fun _ => true) 2).threadBatches = [[0, 1], [2, 3], [4]] ∧
    (dispatchRound [0, 1, 2, 3, 4] (fun _ => true) 2).powRequests = [0, 1, 2, 3, 4] ∧
    (dispatchRound [0, 1, 2, 3, 4] (fun _ => true) 2).startedThreads = [4] ∧
    (dispatchRound [0, 1, 2, 3, 4] (fun _ => true) 2).startedThreads.length ≠ 5 := by
  decide

/-- C2 counterexample: with rate limit 100, `last_updated_block = 0` and
current block 101, the tick is eligible and the commit is attempted; even
though the commit FAILS (`commitSucceeds = false`), the code sets
`last_updated_block` to 101, not leaving it unchanged at 0 as the claim
states. -/
theorem set_weights_rate_limit_advance_on_failure :
    (100 : ℤ) < 101 - 0 ∧
    (weightsTickUpdate 100 101 0 false).1 = 101 ∧
    (weightsTickUpdate 100 101 0 false).1 ≠ 0 := by
  decide

/-- C2 amended: on every eligible tick (`rateLimit < currentBlock - lastUpdatedBlock`)
the validator recomputes scores and attempts the commit, and
`last_updated_block` is advanced to the current block regardless of whether
the commit succeeds or fails — the outcome of the tick is independent of
the commit result, so a failed commit is not retried before the next full
rate-limit window elapses. -/
theorem weightsTick_advances_unconditionally (rl cb lub : ℤ) (ok : Bool)
    (h : rl < cb - lub) :
    weightsTickUpdate rl cb lub ok = (cb, true) ∧
    weightsTickUpdate rl cb lub ok = weightsTickUpdate rl cb lub (!ok) := by
  constructor
  · simp [weightsTickUpdate, if_pos h]
  · simp [weightsTickUpdate]

/-- C2 amended, witness: the eligible failing tick (rate limit 100, blocks
0 → 101, commit failing) advances `last_updated_block` to 101 with a commit
attempt made. -/
theorem weightsTick_advances_unconditionally_witness :
    (100 : ℤ) < 101 - 0 ∧ weightsTickUpdate 100 101 0 false = (101, true) :=
  ⟨by decide, (weightsTick_advances_unconditionally 100 101 0 false (by decide)).1⟩

/-- C3 counterexample: a worker with minimum difficulty `D_min = 6`, a
last-20 difficulty average of 6 (so current difficulty 6 = `D_min`),
2 failures in the last 20 outcomes and 20 lifetime successes is assigned
difficulty 5, strictly below `D_min`: the decrement in
`Validator.calc_difficulty` is not floored at the configured minimum. -/
theorem calc_difficulty_below_min_counterexample :
    calc_difficulty 6 (some { last20DifficultyAvg := some 6,
                              last20ChallengeFailed := some 2,
                              challengeSuccesses := some 20 }) = 5 ∧
    (5 : ℤ) < 6 := by
  constructor
  · norm_num [calc_difficulty, currentDifficulty, force_to_float_or_default]
  · decide

/-- C5: with `blacklist_hotkeys = {"hk1"}`, checking a neuron with hotkey
"hk1" and coldkey "ck1" returns blacklisted, but the source adds "ck1" to
the HOTKEY blacklist (`self.blacklist_hotkeys.add(coldkey)`), leaving the
coldkey blacklist empty — contradicting its own comment ("Add the coldkey
attached to this hotkey in the blacklisted coldkeys") — and a subsequent
worker bearing the same account key "ck1" under a fresh hotkey "hk2" is NOT
filtered out. -/
theorem is_blacklisted_coldkey_not_propagated :
    (is_blacklisted { blacklistHotkeys := ["hk1"], blacklistColdkeys := [],
                      exploitersHotkeys := [], exploitersColdkeys := [] }
        { hotkey := "hk1", coldkey := "ck1" }).1 = true ∧
    (is_blacklisted { blacklistHotkeys := ["hk1"], blacklistColdkeys := [],
                      exploitersHotkeys := [], exploitersColdkeys := [] }
        { hotkey := "hk1", coldkey := "ck1" }).2 =
      { blacklistHotkeys := ["ck1", "hk1"], blacklistColdkeys := [],
        exploitersHotkeys := [], exploitersColdkeys := [] } ∧
    (is_blacklisted { blacklistHotkeys := ["ck1", "hk1"], blacklistColdkeys := [],
                      exploitersHotkeys := [], exploitersColdkeys := [] }
        { hotkey := "hk2", coldkey := "ck1" }).1 = false := by
  decide

/-- C9 counterexample: a tick trace in which the first body raises an
exception that is neither a `RuntimeError` nor the keyboard interrupt. No
handler of the loop matches, the exception propagates, and the process
crashes after one iteration instead of proceeding to the second tick as the
claim states. -/
theorem main_loop_other_exception_crash :
    (∀ t ∈ [some LoopExc.otherError, (none : Option LoopExc)],
        t ≠ some LoopExc.keyboardInterrupt) ∧
    runLoop [some LoopExc.otherError, none] =
      { processed := 1, outcome := LoopOutcome.crashed } ∧
    (runLoop [some LoopExc.otherError, none]).processed ≠ 2 := by
  decide

/-- C9 amended: the loop survives a tick only when the body returns
normally or raises precisely a `RuntimeError` (the sole logged-and-continue
handler); on any trace free of keyboard interrupts and of
non-`RuntimeError` exceptions, every tick is processed and the loop keeps
running. -/
theorem main_loop_exception_handling (ticks : List (Option LoopExc))
    (h : ∀ t ∈ ticks, t ≠ some LoopExc.keyboardInterrupt ∧ t ≠ some LoopExc.otherError) :
    (runLoop ticks).processed = ticks.length ∧
    (runLoop ticks).outcome = LoopOutcome.running := by
  induction ticks with
  | nil => exact ⟨rfl, rfl⟩
  | cons t ts ih =>
    have ht := h t (List.mem_cons_self t ts)
    have hts : ∀ x ∈ ts, x ≠ some LoopExc.keyboardInterrupt ∧ x ≠ some LoopExc.otherError :=
      fun x hx => h x (List.mem_cons_of_mem t hx)
    have ihts := ih hts
    match t, ht with
    | none, _ =>
      simp [runLoop, ihts.1, ihts.2]
    | some LoopExc.runtimeError, _ =>
      simp [runLoop, ihts.1, ihts.2]
    | some LoopExc.keyboardInterrupt, hcon =>
      exact absurd rfl hcon.1
    | some LoopExc.otherError, hcon =>
      exact absurd rfl hcon.2

/-- C3 amended: for a worker whose stats row is present and whose lifetime
challenge-success count is at least 20: 0 failures in the last 20 gives
current + 1, at least 2 failures gives current - 1 WITHOUT any floor at the
configured minimum difficulty (the counterexample shows it can go below),
and otherwise the difficulty is unchanged; in all cases the returned
difficulty differs from the current difficulty by at most 1. -/
theorem calc_difficulty_adjustment (dmin : ℤ) (stat : ChallengeStat)
    (hsucc : (20 : ℚ) ≤ force_to_float_or_default stat.challengeSuccesses 0) :
    (force_to_float_or_default stat.last20ChallengeFailed 0 = 0 →
      calc_difficulty dmin (some stat) = currentDifficulty dmin stat + 1) ∧
    ((2 : ℚ) ≤ force_to_float_or_default stat.last20ChallengeFailed 0 →
      calc_difficulty dmin (some stat) = currentDifficulty dmin stat - 1) ∧
    (force_to_float_or_default stat.last20ChallengeFailed 0 ≠ 0 →
      ¬ (2 : ℚ) ≤ force_to_float_or_default stat.last20ChallengeFailed 0 →
      calc_difficulty dmin (some stat) = currentDifficulty dmin stat) ∧
    |calc_difficulty dmin (some stat) - currentDifficulty dmin stat| ≤ 1 := by
  have hcalc : calc_difficulty dmin (some stat) =
      (if force_to_float_or_default stat.last20ChallengeFailed 0 = 0 then
        currentDifficulty dmin stat + 1
      else if (2 : ℚ) ≤ force_to_float_or_default stat.last20ChallengeFailed 0 then
        currentDifficulty dmin stat - 1
      else currentDifficulty dmin stat) := by
    simp only [calc_difficulty]
    rw [if_pos hsucc]
  by_cases h0 : force_to_float_or_default stat.last20ChallengeFailed 0 = 0
  · rw [hcalc, if_pos h0]
    refine ⟨fun _ => rfl, ?_, fun hne _ => absurd h0 hne, ?_⟩
    · intro h2
      rw [h0] at h2
      norm_num at h2
    · have h1 : currentDifficulty dmin stat + 1 - currentDifficulty dmin stat = 1 := by ring
      rw [h1]
      norm_num
  · by_cases h2 : (2 : ℚ) ≤ force_to_float_or_default stat.last20ChallengeFailed 0
    · rw [hcalc, if_neg h0, if_pos h2]
      refine ⟨fun h => absurd h h0, fun _ => rfl, fun _ hn => absurd h2 hn, ?_⟩
      have h1 : currentDifficulty dmin stat - 1 - currentDifficulty dmin stat = -1 := by ring
      rw [h1]
      norm_num
    · rw [hcalc, if_neg h0, if_neg h2]
      refine ⟨fun h => absurd h h0, fun h => absurd h h2, fun _ _ => rfl, ?_⟩
      simp

/-- C3 amended, witness: a worker with 20 successes, 0 failures in the last
20, and current difficulty 5 is moved to difficulty 6. -/
theorem calc_difficulty_adjustment_witness :
    (20 : ℚ) ≤ force_to_float_or_default (some 20) 0 ∧
    calc_difficulty 1 (some { last20DifficultyAvg := some 5,
                              last20ChallengeFailed := some 0,
                              challengeSuccesses := some 20 }) = 6 := by
  refine ⟨by norm_num [force_to_float_or_default], ?_⟩
  have h := (calc_difficulty_adjustment 1
      { last20DifficultyAvg := some 5, last20ChallengeFailed := some 0,
        challengeSuccesses := some 20 }
      (by norm_num [force_to_float_or_default])).1
      (by norm_num [force_to_float_or_default])
  rw [h]
  norm_num [currentDifficulty, force_to_float_or_default]

/-- C4 counterexample: a deduplicated set of 10 workers of which 6 run an
outdated version (60% outdated, above the 50% threshold, so the claim says
the stage must skip), with `total_current_miners = 10`: the source compares
`percent(10, 10) = 100` against the threshold instead, does NOT skip, and
filters the set down — the skip condition is not the outdated fraction of
the set. -/
theorem filter_axon_version_counterexample :
    (50 : ℚ) < percent ((sampleAxons.filter (fun p => decide (p.2.version < 2))).length : ℚ)
        (sampleAxons.length : ℚ) ∧
    filter_axon_version 2 10 50 sampleAxons ≠ sampleAxons := by
  have h6 : (sampleAxons.filter (fun p => decide (p.2.version < 2))).length = 6 := by decide
  have h10 : sampleAxons.length = 10 := by decide
  have hc : ¬ (percent (sampleAxons.length : ℚ) ((10 : Nat) : ℚ) ≤ (50 : ℚ)) := by
    rw [h10]
    norm_num [percent]
  constructor
  · rw [h6, h10]
    norm_num [percent]
  · unfold filter_axon_version
    rw [if_neg hc]
    decide

/-- C4 amended: a worker survives the version stage exactly when it was in
the stage-3 set and either the size of that set, as a percentage of the
validator's `total_current_miners` counter, is at most the configured
threshold (the stage then returns the whole set unchanged, never examining
versions), or the minimum-version lookup succeeded and the worker's
version is at least the minimum. The outdated fraction of the set is never
computed. -/
theorem filter_axon_version_characterization (lv tcm : Nat) (thr : ℚ)
    (axons : List (Nat × AxonInfo)) (p : Nat × AxonInfo) :
    p ∈ filter_axon_version lv tcm thr axons ↔
      p ∈ axons ∧
        (percent (axons.length : ℚ) (tcm : ℚ) ≤ thr ∨ (lv ≠ 0 ∧ lv ≤ p.2.version)) := by
  unfold filter_axon_version
  by_cases h : percent (axons.length : ℚ) (tcm : ℚ) ≤ thr
  · simp [h]
  · simp [h, List.mem_filter]

/-- C9 amended, witness: a trace with one `RuntimeError` tick and one
normal tick processes both ticks and is still running. -/
theorem main_loop_exception_handling_witness :
    (∀ t ∈ [some LoopExc.runtimeError, (none : Option LoopExc)],
        t ≠ some LoopExc.keyboardInterrupt ∧ t ≠ some LoopExc.otherError) ∧
    (runLoop [some LoopExc.runtimeError, none]).processed = 2 ∧
    (runLoop [some LoopExc.runtimeError, none]).outcome = LoopOutcome.running :=
  ⟨by decide,
   (main_loop_exception_handling [some LoopExc.runtimeError, none] (by decide)).1,
   (main_loop_exception_handling [some LoopExc.runtimeError, none] (by decide)).2⟩

/-- Looking a key up after a dict assignment of that key yields the
assigned value. -/
theorem lookupMiner_updateMiner (uid : Nat) (hk : String) (l : List (Nat × String)) :
    lookupMiner uid (updateMiner uid hk l) = some hk := by
  induction l with
  | nil => simp [updateMiner, lookupMiner]
  | cons q rest ih =>
    obtain ⟨u, h⟩ := q
    by_cases hu : u = uid
    · simp [updateMiner, hu, lookupMiner]
    · simp [updateMiner, hu, lookupMiner, ih]

/-- C6: when the in-memory miners map binds `uid` to a previous hotkey
`old` and the queryable snapshot carries `uid` with a different hotkey
(the pair `(uid, axon.hotkey)` is not among the persisted items),
`sync_miners_info` issues exactly one purge of the previous binding
followed by exactly one upsert of the new one, and the in-memory map now
binds `uid` to the new hotkey. -/
theorem sync_miners_info_reregistration (miners : List (Nat × String)) (uid : Nat)
    (axon : AxonInfo) (old : String)
    (hlook : lookupMiner uid miners = some old)
    (hmem : (uid, axon.hotkey) ∉ miners) :
    sync_miners_info miners [(uid, axon)] =
      (updateMiner uid axon.hotkey miners,
       [DbEffect.purge uid old, DbEffect.upsert uid axon.hotkey]) ∧
    lookupMiner uid (sync_miners_info miners [(uid, axon)]).1 = some axon.hotkey := by
  have hne : miners ≠ [] := by
    intro h
    rw [h] at hlook
    simp [lookupMiner] at hlook
  have hstep : sync_miners_info miners [(uid, axon)] = syncStep (miners, []) (uid, axon) := rfl
  have hres : syncStep (miners, []) (uid, axon) =
      (updateMiner uid axon.hotkey miners,
       [DbEffect.purge uid old, DbEffect.upsert uid axon.hotkey]) := by
    unfold syncStep
    rw [if_pos ⟨hne, hmem⟩, hlook]
    rfl
  refine ⟨hstep.trans hres, ?_⟩
  rw [hstep, hres]
  exact lookupMiner_updateMiner uid axon.hotkey miners

/-- Concrete new axon used by the registry re-registration witness. -/
def axB : AxonInfo :=
  { hotkey := "addrB", coldkey := "ck", ip := "1.1.1.1", version := 0 }

/-- C6 witness: starting from the persisted identity (5, "addrA") and the
snapshot entry (5, "addrB"), the reconciliation yields exactly
purge(5, "addrA") followed by upsert(5, "addrB") and rebinds uid 5 to
"addrB" in memory. -/
theorem sync_miners_info_reregistration_witness :
    lookupMiner 5 [(5, "addrA")] = some "addrA" ∧
    sync_miners_info [(5, "addrA")] [(5, axB)] =
      ([(5, "addrB")], [DbEffect.purge 5 "addrA", DbEffect.upsert 5 "addrB"]) := by
  refine ⟨by decide, ?_⟩
  have h := (sync_miners_info_reregistration [(5, "addrA")] 5 axB "addrA"
      (by decide) (by decide)).1
  rw [h]
  decide

/-- Processing one snapshot entry with an empty in-memory miners map does
nothing: the guard `miners_items_to_set and ...` is falsy. -/
theorem syncStep_empty (effs : List DbEffect) (p : Nat × AxonInfo) :
    syncStep ([], effs) p = ([], effs) := by
  simp [syncStep]

/-- Folding the loop body from an empty miners map leaves the state fixed. -/
theorem foldl_syncStep_empty (queryable : List (Nat × AxonInfo)) (effs : List DbEffect) :
    queryable.foldl syncStep ([], effs) = ([], effs) := by
  induction queryable with
  | nil => rfl
  | cons p ps ih =>
    rw [List.foldl_cons, syncStep_empty]
    exact ih

/-- C10: with an empty in-memory known-miners map, reconciliation of any
queryable snapshot performs no stats-store purge and no upsert and leaves
the map empty — no new binding is ever recorded from this state. -/
theorem sync_miners_info_empty_map (queryable : List (Nat × AxonInfo)) :
    sync_miners_info [] queryable = ([], []) :=
  foldl_syncStep_empty queryable []

/-- On a vector of non-negative scores the L1 norm is the plain sum. -/
theorem l1Norm_eq_sum (scores : List ℚ) (h : ∀ s ∈ scores, 0 ≤ s) :
    l1Norm scores = scores.sum := by
  induction scores with
  | nil => rfl
  | cons a l ih =>
    have ha : 0 ≤ a := h a (List.mem_cons_self a l)
    have hl : ∀ s ∈ l, 0 ≤ s := fun s hs => h s (List.mem_cons_of_mem a hs)
    have h2 := ih hl
    unfold l1Norm at h2 ⊢
    simp only [List.map_cons, List.sum_cons]
    rw [abs_of_nonneg ha, h2]

/-- Dividing every entry of a list by a constant divides its sum. -/
theorem sum_map_div (l : List ℚ) (c : ℚ) :
    (l.map (fun s => s / c)).sum = l.sum / c := by
  induction l with
  | nil => simp
  | cons a t ih => simp [List.map_cons, List.sum_cons, ih, add_div]

/-- A list of non-negative rationals with zero sum is identically zero. -/
theorem all_zero_of_sum_eq_zero (l : List ℚ) (h : ∀ s ∈ l, 0 ≤ s) (h0 : l.sum = 0) :
    ∀ s ∈ l, s = 0 := by
  induction l with
  | nil => intro s hs; simp at hs
  | cons a t ih =>
    have ha : 0 ≤ a := h a (List.mem_cons_self a t)
    have ht : ∀ s ∈ t, 0 ≤ s := fun s hs => h s (List.mem_cons_of_mem a hs)
    have htsum : 0 ≤ t.sum := List.sum_nonneg ht
    have hsum : a + t.sum = 0 := by simpa using h0
    have ha0 : a = 0 := by linarith
    have ht0 : t.sum = 0 := by linarith
    intro s hs
    rcases List.mem_cons.mp hs with rfl | hmem
    · exact ha0
    · exact ih ht ht0 s hmem

/-- C7: the weight vector committed by `set_weights` is the
L1-normalization of the (non-negative) score vector: when the total score
is zero every committed weight is zero, and when the total is at least the
library epsilon every weight is the worker's score divided by the total
score and the weights sum to exactly 1. -/
theorem set_weights_l1_normalization (scores : List ℚ)
    (hpos : ∀ s ∈ scores, 0 ≤ s) :
    (scores.sum = 0 → ∀ w ∈ set_weights_vector scores, w = 0) ∧
    (torchEps ≤ scores.sum →
      set_weights_vector scores = scores.map (fun s => s / scores.sum) ∧
      (set_weights_vector scores).sum = 1) := by
  constructor
  · intro h0 w hw
    unfold set_weights_vector at hw
    obtain ⟨s, hs, rfl⟩ := List.mem_map.mp hw
    rw [all_zero_of_sum_eq_zero scores hpos h0 s hs, zero_div]
  · intro heps
    have hmax : max (l1Norm scores) torchEps = scores.sum := by
      rw [l1Norm_eq_sum scores hpos]
      exact max_eq_left heps
    have hveq : set_weights_vector scores = scores.map (fun s => s / scores.sum) := by
      unfold set_weights_vector
      rw [hmax]
    refine ⟨hveq, ?_⟩
    have hpos' : (0 : ℚ) < scores.sum :=
      lt_of_lt_of_le (by norm_num [torchEps]) heps
    rw [hveq, sum_map_div]
    exact div_self (ne_of_gt hpos')

/-- C7 witness: the score vector [1, 3] is normalized to [1/4, 3/4], which
sums to 1. -/
theorem set_weights_l1_normalization_witness :
    (∀ s ∈ [(1 : ℚ), 3], 0 ≤ s) ∧
    set_weights_vector [(1 : ℚ), 3] = [1 / 4, 3 / 4] ∧
    (set_weights_vector [(1 : ℚ), 3]).sum = 1 := by
  have h2 := (set_weights_l1_normalization [(1 : ℚ), 3] (by norm_num)).2
      (by norm_num [torchEps])
  refine ⟨by norm_num, ?_, h2.2⟩
  rw [h2.1]
  norm_num

/-- The dedup loop output is a sublist of its input: entries are kept in
input order and never duplicated or invented. -/
theorem filterAxonsAux_sublist (seen : List String) (l : List (Nat × AxonInfo)) :
    (filterAxonsAux seen l).Sublist l := by
  induction l generalizing seen with
  | nil => simp [filterAxonsAux]
  | cons p rest ih =>
    by_cases h : p.2.ip ∈ seen
    · simp only [filterAxonsAux, if_pos h]
      exact (ih seen).cons p
    · simp only [filterAxonsAux, if_neg h]
      exact (ih (p.2.ip :: seen)).cons₂ p

/-- Every entry kept by the dedup loop has an address outside the already
seen set. -/
theorem filterAxonsAux_ip_not_seen (seen : List String) (l : List (Nat × AxonInfo))
    (p : Nat × AxonInfo) (hp : p ∈ filterAxonsAux seen l) : p.2.ip ∉ seen := by
  induction l generalizing seen with
  | nil => simp [filterAxonsAux] at hp
  | cons q rest ih =>
    by_cases h : q.2.ip ∈ seen
    · rw [show filterAxonsAux seen (q :: rest) = filterAxonsAux seen rest from by
        simp only [filterAxonsAux, if_pos h]] at hp
      exact ih seen hp
    · rw [show filterAxonsAux seen (q :: rest) = q :: filterAxonsAux (q.2.ip :: seen) rest from by
        simp only [filterAxonsAux, if_neg h]] at hp
      rcases List.mem_cons.mp hp with rfl | hmem
      · exact h
      · have hns := ih (q.2.ip :: seen) hmem
        exact fun hin => hns (List.mem_cons_of_mem _ hin)

/-- The addresses of the dedup loop output are pairwise distinct. -/
theorem filterAxonsAux_pairwise (seen : List String) (l : List (Nat × AxonInfo)) :
    (filterAxonsAux seen l).Pairwise (fun p q => p.2.ip ≠ q.2.ip) := by
  induction l generalizing seen with
  | nil => simp [filterAxonsAux]
  | cons p rest ih =>
    by_cases h : p.2.ip ∈ seen
    · simp only [filterAxonsAux, if_pos h]
      exact ih seen
    · simp only [filterAxonsAux, if_neg h]
      refine List.Pairwise.cons ?_ (ih (p.2.ip :: seen))
      intro q hq hEq
      have hns := filterAxonsAux_ip_not_seen (p.2.ip :: seen) rest q hq
      apply hns
      rw [← hEq]
      exact List.mem_cons_self _ _

/-- Among the input entries carrying a fixed address, the dedup loop keeps
exactly the first one (none when the address was already seen). -/
theorem filterAxonsAux_filter_ip (ip : String) (seen : List String)
    (l : List (Nat × AxonInfo)) :
    (filterAxonsAux seen l).filter (fun p => decide (p.2.ip = ip)) =
      if ip ∈ seen then [] else (l.filter (fun p => decide (p.2.ip = ip))).take 1 := by
  induction l generalizing seen with
  | nil => simp [filterAxonsAux]
  | cons q rest ih =>
    by_cases hq : q.2.ip ∈ seen
    · simp only [filterAxonsAux, if_pos hq]
      rw [ih seen]
      by_cases hip : ip ∈ seen
      · simp [hip]
      · have hne : ¬ (q.2.ip = ip) := fun h => hip (h ▸ hq)
        simp [hip, List.filter_cons, hne]
    · simp only [filterAxonsAux, if_neg hq]
      rw [List.filter_cons, List.filter_cons]
      simp only [decide_eq_true_eq]
      by_cases hqi : q.2.ip = ip
      · subst hqi
        simp [ih (q.2.ip :: seen), hq]
      · rw [if_neg hqi, if_neg hqi, ih (q.2.ip :: seen)]
        by_cases hip : ip ∈ seen
        · rw [if_pos (List.mem_cons_of_mem _ hip), if_pos hip]
        · have hnotin : ip ∉ q.2.ip :: seen := by
            intro h
            rcases List.mem_cons.mp h with h1 | h2
            · exact hqi h1.symm
            · exact hip h2
          rw [if_neg hnotin, if_neg hip]

/-- C8: the deduplication stage `filter_axons` keeps, in input order, a
sublist of its input in which no two entries share a network address, and
for every address the kept entries are exactly the first input entry
carrying that address — later duplicates are dropped. -/
theorem filter_axons_first_per_ip (pairs : List (Nat × AxonInfo)) :
    (filter_axons pairs).Pairwise (fun p q => p.2.ip ≠ q.2.ip) ∧
    (filter_axons pairs).Sublist pairs ∧
    ∀ ip, (filter_axons pairs).filter (fun p => decide (p.2.ip = ip)) =
      (pairs.filter (fun p => decide (p.2.ip = ip))).take 1 := by
  refine ⟨filterAxonsAux_pairwise [] pairs, filterAxonsAux_sublist [] pairs, fun ip => ?_⟩
  rw [filter_axons, filterAxonsAux_filter_ip ip [] pairs]
  simp
